import Mathlib

/-!
Verification of the `bigpandaapi` client library.

This file shallowly embeds the parts of the library relevant to the
mapping-enrichment workflow:

* `private.py`: the CSV serialization helper `_list_of_dicts_to_csv_str`
  (Python `csv.DictWriter` with `extrasaction="ignore"` and the `unix`
  dialect, i.e. every field quoted, `"` escaped by doubling, lines ending
  in a single newline) and `_extract_enrichment_name_from_csv`.
* `mapping_enrichment.py`: the function `mapping_update_table`, modelled as
  a deterministic function of its arguments and an oracle describing the
  responses of the remote service.  Network requests, sleeps and raised
  exceptions are recorded explicitly.

Python dicts are modelled as association lists (`Rec`); `None`-able
arguments as `Option`; Python string sorting as lexicographic comparison of
code points.  The unbounded polling loop is modelled with explicit fuel: a
run that returns `none` for every fuel bound never terminates.
-/

namespace BigPanda

/-- The double-quote character used by the CSV quoting routines. -/
def dq : Char := Char.ofNat 34

/-- The comma separator of the CSV dialect. -/
def comma : Char := ','

/-- The line terminator of the `unix` CSV dialect. -/
def nl : Char := '\n'

/-- A Python dict of strings, modelled as an association list in insertion
order.  Lookup finds the first binding, matching dict semantics when keys
are unique. -/
abbrev Rec := List (String × String)

/-- The keys of a record, in insertion order. -/
def recKeys (r : Rec) : List String := r.map Prod.fst

/-- Lexicographic comparison of character lists by code point, as Python
compares strings. -/
def lexLe : List Char → List Char → Bool
  | [], _ => true
  | _ :: _, [] => false
  | a :: as, b :: bs =>
    if a.toNat < b.toNat then true
    else if b.toNat < a.toNat then false
    else lexLe as bs

/-- The string order used by Python's `sorted`: code-point lexicographic. -/
def strLe (a b : String) : Prop := lexLe a.data b.data = true

instance : DecidableRel strLe := fun a b => by
  unfold strLe; exact inferInstance

theorem lexLe_total (a b : List Char) : lexLe a b = true ∨ lexLe b a = true := by
  induction a generalizing b with
  | nil => left; rfl
  | cons x xs ih =>
    cases b with
    | nil => right; rfl
    | cons y ys =>
      simp only [lexLe]
      rcases Nat.lt_trichotomy x.toNat y.toNat with h | h | h
      · left; simp [h]
      · have hxy : ¬ x.toNat < y.toNat := by omega
        have hyx : ¬ y.toNat < x.toNat := by omega
        rcases ih ys with h2 | h2
        · left; simp [hxy, hyx, h2]
        · right; simp [hxy, hyx, h2]
      · right; simp [h]

theorem lexLe_trans {a b c : List Char} (hab : lexLe a b = true)
    (hbc : lexLe b c = true) : lexLe a c = true := by
  induction a generalizing b c with
  | nil => rfl
  | cons x xs ih =>
    cases b with
    | nil => simp [lexLe] at hab
    | cons y ys =>
      cases c with
      | nil => simp [lexLe] at hbc
      | cons z zs =>
        simp only [lexLe] at hab hbc ⊢
        by_cases h1 : x.toNat < y.toNat
        · by_cases h2 : y.toNat < z.toNat
          · simp [Nat.lt_trans h1 h2]
          · by_cases h3 : z.toNat < y.toNat
            · simp [h2, h3] at hbc
            · have hxz : x.toNat < z.toNat := by omega
              simp [hxz]
        · by_cases h1' : y.toNat < x.toNat
          · simp [h1, h1'] at hab
          · by_cases h2 : y.toNat < z.toNat
            · have hxz : x.toNat < z.toNat := by omega
              simp [hxz]
            · by_cases h3 : z.toNat < y.toNat
              · simp [h2, h3] at hbc
              · have hxz : ¬ x.toNat < z.toNat := by omega
                have hzx : ¬ z.toNat < x.toNat := by omega
                simp [h1, h1'] at hab
                simp [h2, h3] at hbc
                simp [hxz, hzx]
                exact ih hab hbc

theorem char_toNat_inj {a b : Char} (h : a.toNat = b.toNat) : a = b :=
  Char.ofNat_toNat a ▸ Char.ofNat_toNat b ▸ congrArg Char.ofNat h

theorem lexLe_antisymm {a b : List Char} (hab : lexLe a b = true)
    (hba : lexLe b a = true) : a = b := by
  induction a generalizing b with
  | nil =>
    cases b with
    | nil => rfl
    | cons y ys => simp [lexLe] at hba
  | cons x xs ih =>
    cases b with
    | nil => simp [lexLe] at hab
    | cons y ys =>
      simp only [lexLe] at hab hba
      by_cases h1 : x.toNat < y.toNat
      · have h2 : ¬ y.toNat < x.toNat := by omega
        simp [h1, h2] at hba
      · by_cases h2 : y.toNat < x.toNat
        · simp [h1, h2] at hab
        · have hxy : x.toNat = y.toNat := by omega
          simp [h1, h2] at hab hba
          rw [char_toNat_inj hxy, ih hab hba]

instance : IsTotal String strLe :=
  ⟨fun a b => lexLe_total a.data b.data⟩

instance : IsTrans String strLe :=
  ⟨fun _ _ _ hab hbc => lexLe_trans hab hbc⟩

instance : IsAntisymm String strLe :=
  ⟨fun a b hab hba => by
    cases a; cases b
    simp only [strLe] at hab hba
    exact congrArg String.mk (lexLe_antisymm hab hba)⟩

/-- `sorted(fieldnames_set)`: the sorted, de-duplicated union of all field
names occurring across the records, as built by the loop in
`_list_of_dicts_to_csv_str`. -/
def fieldnames (lod : List Rec) : List String :=
  List.insertionSort strLe ((lod.flatMap recKeys).dedup)

/-- One output row of `csv.DictWriter` for a record: for each field of the
header, `rowdict.get(key, restval)` with `restval = ""` — extra fields of
the record are ignored (`extrasaction="ignore"`). -/
def rowOf (fns : List String) (r : Rec) : List String :=
  fns.map (fun f => (r.lookup f).getD "")

/-- Escape a field body as `csv` does with `doublequote=True`: each `"`
becomes `""`. -/
def escapeField : List Char → List Char
  | [] => []
  | c :: cs => if c = dq then dq :: dq :: escapeField cs else c :: escapeField cs

/-- Quote one cell as the `unix` dialect (`QUOTE_ALL`) does: wrap the
escaped body in double quotes. -/
def quoteCell (s : String) : List Char := dq :: (escapeField s.data ++ [dq])

/-- `",".join(quoted cells)`. -/
def writeCells : List String → List Char
  | [] => []
  | [v] => quoteCell v
  | v :: vs => quoteCell v ++ comma :: writeCells vs

/-- One CSV line: the joined quoted cells followed by the `unix` dialect's
line terminator. -/
def writeRow (vs : List String) : List Char := writeCells vs ++ [nl]

/-- The full character stream produced by `_list_of_dicts_to_csv_str`:
`writer.writeheader()` followed by `writer.writerows(list_of_dicts)`. -/
def csvChars (lod : List Rec) : List Char :=
  writeRow (fieldnames lod) ++
    lod.flatMap (fun r => writeRow (rowOf (fieldnames lod) r))

/-- `_list_of_dicts_to_csv_str` from `private.py`: serialize a list of
dicts to CSV text (header = sorted union of keys, `QUOTE_ALL`, `"` doubled,
newline-terminated rows, missing fields empty, extra fields ignored). -/
def _list_of_dicts_to_csv_str (lod : List Rec) : String :=
  String.mk (csvChars lod)

/-- Parse the body of a quoted cell (the characters after the opening
quote): `""` is an escaped quote, a lone `"` closes the cell.  Returns the
cell body and the remaining input, or `none` if the cell is unterminated. -/
def parseQuoted : List Char → Option (List Char × List Char)
  | [] => none
  | c :: cs =>
    if c = dq then
      match cs with
      | c2 :: cs2 =>
        if c2 = dq then (parseQuoted cs2).map (fun p => (dq :: p.1, p.2))
        else some ([], cs)
      | [] => some ([], [])
    else (parseQuoted cs).map (fun p => (c :: p.1, p.2))

/-- Scan a stream of quoted cells, each followed by either a comma
(`rowEnd = false`) or a newline (`rowEnd = true`).  The fuel bounds the
number of cells. -/
def tokenize : Nat → List Char → Option (List (List Char × Bool))
  | 0, _ => none
  | _ + 1, [] => some []
  | fuel + 1, c :: cs =>
    if c = dq then
      match parseQuoted cs with
      | none => none
      | some (f, r) =>
        match r with
        | [] => none
        | c2 :: r2 =>
          if c2 = comma then (tokenize fuel r2).map (fun ts => (f, false) :: ts)
          else if c2 = nl then (tokenize fuel r2).map (fun ts => (f, true) :: ts)
          else none
    else none

/-- Group a token stream into rows, splitting after each `rowEnd` token;
fails on a trailing unterminated row. -/
def groupRowsAux : List (List Char × Bool) → List String → Option (List (List String))
  | [], [] => some []
  | [], _ :: _ => none
  | (f, false) :: ts, cur => groupRowsAux ts (cur ++ [String.mk f])
  | (f, true) :: ts, cur =>
    (groupRowsAux ts []).map (fun rs => (cur ++ [String.mk f]) :: rs)

/-- Parse a full CSV character stream into its rows of cells. -/
def parseCSV (s : List Char) : Option (List (List String)) :=
  (tokenize (s.length + 1) s).bind (fun ts => groupRowsAux ts [])

/-- The remaining input after a serialized cell never starts with a quote
(it starts with a separator or is empty). -/
def headNotDq : List Char → Prop
  | [] => True
  | c :: _ => c ≠ dq

/-- The token stream of one row: every cell but the last is followed by a
comma, the last by a newline. -/
def rowToks : List String → List (List Char × Bool)
  | [] => []
  | [v] => [(v.data, true)]
  | v :: vs => (v.data, false) :: rowToks vs

/-- Re-serialize a token stream: each cell quoted and followed by its
separator. -/
def serializeToks : List (List Char × Bool) → List Char
  | [] => []
  | (f, b) :: ts =>
    dq :: (escapeField f ++ dq :: (if b then nl else comma) :: serializeToks ts)

theorem parseQuoted_round (f : List Char) :
    ∀ rest : List Char, headNotDq rest →
      parseQuoted (escapeField f ++ (dq :: rest)) = some (f, rest) := by
  induction f with
  | nil =>
    intro rest h
    cases rest with
    | nil => rfl
    | cons c2 cs2 =>
      simp only [headNotDq] at h
      simp [escapeField, parseQuoted, h]
  | cons c f' ih =>
    intro rest h
    by_cases hc : c = dq
    · subst hc
      simp [escapeField, parseQuoted, ih rest h]
    · have hne : escapeField f' ++ dq :: rest ≠ [] := by simp
      obtain ⟨e, es, hE⟩ : ∃ e es, escapeField f' ++ dq :: rest = e :: es := by
        cases hE2 : escapeField f' ++ dq :: rest with
        | nil => exact absurd hE2 hne
        | cons e es => exact ⟨e, es, rfl⟩
      have hesc : escapeField (c :: f') = c :: escapeField f' := by
        simp [escapeField, hc]
      calc parseQuoted (escapeField (c :: f') ++ dq :: rest)
          = parseQuoted (c :: (e :: es)) := by rw [hesc, List.cons_append, hE]
        _ = (parseQuoted (e :: es)).map (fun p => (c :: p.1, p.2)) := by
            simp [parseQuoted, hc]
        _ = some (c :: f', rest) := by rw [← hE, ih rest h]; rfl

theorem comma_ne_dq : comma ≠ dq := by decide

theorem nl_ne_dq : nl ≠ dq := by decide

theorem nl_ne_comma : nl ≠ comma := by decide

theorem tokenize_round (ts : List (List Char × Bool)) :
    ∀ fuel : Nat, ts.length < fuel →
      tokenize fuel (serializeToks ts) = some ts := by
  induction ts with
  | nil =>
    intro fuel hfuel
    cases fuel with
    | zero => omega
    | succ n => rfl
  | cons t ts' ih =>
    intro fuel hfuel
    obtain ⟨f, b⟩ := t
    cases fuel with
    | zero => simp at hfuel
    | succ n =>
      have hn : ts'.length < n := by simp at hfuel; omega
      cases b with
      | false =>
        have hq := parseQuoted_round f (comma :: serializeToks ts')
          (by simpa [headNotDq] using comma_ne_dq)
        simp [serializeToks, tokenize, hq, ih n hn]
      | true =>
        have hq := parseQuoted_round f (nl :: serializeToks ts')
          (by simpa [headNotDq] using nl_ne_dq)
        simp [serializeToks, tokenize, hq, nl_ne_comma, ih n hn]

theorem serializeToks_append (a b : List (List Char × Bool)) :
    serializeToks (a ++ b) = serializeToks a ++ serializeToks b := by
  induction a with
  | nil => rfl
  | cons t a' ih =>
    obtain ⟨f, fb⟩ := t
    simp [serializeToks, ih]

theorem serializeToks_rowToks (vs : List String) (h : vs ≠ []) :
    serializeToks (rowToks vs) = writeRow vs := by
  induction vs with
  | nil => exact absurd rfl h
  | cons v vs' ih =>
    cases vs' with
    | nil =>
      simp [rowToks, serializeToks, writeRow, writeCells, quoteCell]
    | cons w ws =>
      have hne : w :: ws ≠ [] := by simp
      simp only [rowToks, serializeToks, ih hne, writeRow, writeCells, quoteCell]
      simp

theorem length_le_serializeToks (ts : List (List Char × Bool)) :
    ts.length ≤ (serializeToks ts).length := by
  induction ts with
  | nil => simp [serializeToks]
  | cons t ts' ih =>
    obtain ⟨f, b⟩ := t
    simp only [serializeToks, List.length_cons, List.length_append]
    omega

theorem string_mk_data (s : String) : String.mk s.data = s := rfl

theorem groupRowsAux_row (vs : List String) :
    ∀ (ts : List (List Char × Bool)) (cur : List String), vs ≠ [] →
      groupRowsAux (rowToks vs ++ ts) cur =
        (groupRowsAux ts []).map (fun rs => (cur ++ vs) :: rs) := by
  induction vs with
  | nil => intro ts cur h; exact absurd rfl h
  | cons v vs' ih =>
    intro ts cur _
    cases vs' with
    | nil => simp [rowToks, groupRowsAux, string_mk_data]
    | cons w ws =>
      have hne : w :: ws ≠ [] := by simp
      have hstep : rowToks (v :: w :: ws) = (v.data, false) :: rowToks (w :: ws) := rfl
      rw [hstep, List.cons_append]
      have hgroup : groupRowsAux ((v.data, false) :: (rowToks (w :: ws) ++ ts)) cur =
          groupRowsAux (rowToks (w :: ws) ++ ts) (cur ++ [String.mk v.data]) := rfl
      rw [hgroup, string_mk_data, ih ts (cur ++ [v]) hne]
      simp

theorem groupRowsAux_rows (rows : List (List String))
    (h : ∀ row ∈ rows, row ≠ []) :
    groupRowsAux (rows.flatMap rowToks) [] = some rows := by
  induction rows with
  | nil => rfl
  | cons r rows' ih =>
    have hr : r ≠ [] := h r (by simp)
    have hrows' : ∀ row ∈ rows', row ≠ [] := fun row hm => h row (by simp [hm])
    simp [List.flatMap_cons, groupRowsAux_row r _ [] hr, ih hrows']

theorem flatMap_writeRow_eq (rows : List (List String))
    (h : ∀ row ∈ rows, row ≠ []) :
    rows.flatMap writeRow = serializeToks (rows.flatMap rowToks) := by
  induction rows with
  | nil => rfl
  | cons r rows' ih =>
    have hr : r ≠ [] := h r (by simp)
    have hrows' : ∀ row ∈ rows', row ≠ [] := fun row hm => h row (by simp [hm])
    simp [List.flatMap_cons, serializeToks_append, serializeToks_rowToks r hr,
      ih hrows']

/-- Round trip at the row level: parsing re-serialized rows recovers them
exactly (for rows with at least one cell, as all `DictWriter` output rows
of a nonempty header are). -/
theorem parseCSV_writeRows (rows : List (List String))
    (h : ∀ row ∈ rows, row ≠ []) :
    parseCSV (rows.flatMap writeRow) = some rows := by
  have hser := flatMap_writeRow_eq rows h
  have hlen : (rows.flatMap rowToks).length < (rows.flatMap writeRow).length + 1 := by
    rw [hser]
    exact Nat.lt_succ_of_le (length_le_serializeToks _)
  unfold parseCSV
  rw [hser, tokenize_round _ _ (by rw [← hser]; exact hlen)]
  simp [groupRowsAux_rows rows h]

theorem fieldnames_perm (lod : List Rec) :
    (fieldnames lod).Perm (lod.flatMap recKeys).dedup :=
  List.perm_insertionSort strLe _

theorem fieldnames_sorted (lod : List Rec) :
    List.Sorted strLe (fieldnames lod) :=
  List.sorted_insertionSort strLe _

theorem fieldnames_nodup (lod : List Rec) : (fieldnames lod).Nodup :=
  (fieldnames_perm lod).nodup_iff.mpr (List.nodup_dedup _)

theorem mem_fieldnames {lod : List Rec} {f : String} :
    f ∈ fieldnames lod ↔ ∃ r ∈ lod, f ∈ recKeys r := by
  rw [(fieldnames_perm lod).mem_iff, List.mem_dedup, List.mem_flatMap]

/-- Two sorted, duplicate-free lists with the same members coincide. -/
theorem fieldnames_ext {lod lod' : List Rec}
    (h : ∀ f, (∃ r ∈ lod, f ∈ recKeys r) ↔ (∃ r ∈ lod', f ∈ recKeys r)) :
    fieldnames lod = fieldnames lod' := by
  apply List.eq_of_perm_of_sorted _ (fieldnames_sorted lod) (fieldnames_sorted lod')
  rw [List.perm_ext_iff_of_nodup (fieldnames_nodup lod) (fieldnames_nodup lod')]
  intro f
  rw [mem_fieldnames, mem_fieldnames]
  exact h f

/-! ## Model of `mapping_update_table` (`mapping_enrichment.py`) -/

/-- The Python exceptions that can escape `mapping_update_table`.
`httpError` is `requests.HTTPError`, raised by the session's
`raise_for_status` response hook on any non-2xx response (and standing in
for `requests` transport errors generally); it is *not* a
`BigPandaAPIException`. -/
inductive PyException where
  | typeError (msg : String)
  | indexError
  | httpError
  | stopIteration
  | unboundLocalError
  | bigPandaAPIException (msg : String)
  deriving DecidableEq, Repr

/-- The outcome of a call: normal return or a raised exception. -/
inductive Outcome where
  | success
  | raised (e : PyException)
  deriving DecidableEq, Repr

/-- Externally observable side effects of a run, in order: the lookup GET,
the upload POST, `time.sleep(seconds)`, and a poll GET. -/
inductive Event where
  | getLookup
  | postUpload
  | sleepEv (seconds : Nat)
  | getPoll
  deriving DecidableEq, Repr

/-- Result of one HTTP request as seen through the response hook: either
the hook raised (non-2xx / transport failure) or the decoded JSON body. -/
inductive HttpResult (α : Type) where
  | transportError
  | ok (body : α)
  deriving DecidableEq, Repr

/-- One element of the `data` array of the resource-lookup response:
`item["config"]["name"]` (JSON `null` modelled as `none`) and
`item["id"]`. -/
structure LookupEntry where
  config_name : Option String
  id : String
  deriving DecidableEq, Repr

/-- The remote service's behaviour during one call: the body of the lookup
response, the upload response (`job_id` field present or absent), and the
status returned by the k-th poll. -/
structure Oracle where
  lookup : HttpResult (List LookupEntry)
  upload : HttpResult (Option String)
  poll : Nat → HttpResult String

/-- Python truthiness of an optional string (`None` and `""` are falsy). -/
def truthyStr : Option String → Bool
  | none => false
  | some s => s ≠ ""

/-- Python truthiness of an optional list (`None` and `[]` are falsy). -/
def truthyList : Option (List Rec) → Bool
  | none => false
  | some l => l ≠ []

/-- `[csv_path, list_of_dicts].count(None)`. -/
def noneCount (csv_path : Option String) (list_of_dicts : Option (List Rec)) : Nat :=
  (if csv_path = none then 1 else 0) + (if list_of_dicts = none then 1 else 0)

/-- The argument validation block at the top of `mapping_update_table`:
returns the raised `TypeError`, or `none` when validation passes. -/
def validateArgs (csv_path : Option String) (list_of_dicts : Option (List Rec))
    (enrichment_name : Option String) : Option PyException :=
  if noneCount csv_path list_of_dicts = 0 then
    some (.typeError "The arguments 'csv_path' and 'list_of_dicts' are mutually exclusive.")
  else if noneCount csv_path list_of_dicts = 2 then
    some (.typeError "Either argument 'csv_path' or 'list_of_dicts' must be set.")
  else if truthyList list_of_dicts ∧ ¬ truthyStr enrichment_name then
    some (.typeError "Argument 'list_of_dicts' requires that argument 'enrichment_name' also be set.")
  else
    none

/-- `_extract_enrichment_name_from_csv` from `private.py`: the second
comma-separated field of the file's first line (`IndexError` when the first
line has no comma). -/
def _extract_enrichment_name_from_csv (content : String) : Except PyException String :=
  let first_line := (content.splitOn "\n").headD ""
  match first_line.splitOn "," with
  | _ :: b :: _ => .ok b
  | _ => .error .indexError

/-- The local variable `csv_string` after the "Prepare string to upload"
block: `none` models the variable never being assigned (the
`if csv_path: ... elif list_of_dicts: ...` chain falls through when both
are falsy). -/
def csvStringOf (csv_path : Option String) (list_of_dicts : Option (List Rec))
    (fileContent : String) : Option String :=
  if truthyStr csv_path then some fileContent
  else if truthyList list_of_dicts then
    some (_list_of_dicts_to_csv_str (list_of_dicts.getD []))
  else none

/-- The name-to-id resolution inside `mapping_update_table`:
`next(item for item in data if item["config"]["name"] == enrichment_name)`
followed by `["id"]` — exact match, first match wins, `none` when the
generator is exhausted (which `next` turns into `StopIteration`). -/
def resolveMappingId (data : List LookupEntry) (enrichment_name : Option String) :
    Option String :=
  (data.find? (fun item => item.config_name == enrichment_name)).map (·.id)

/-- The `while True:` polling loop: each iteration prints, sleeps five
seconds, issues a status GET, and breaks when the status is `done` or
`failed`.  Returns the events of the loop and `some (.ok status)` on a
terminal status, `some (.error ())` when the response hook raised, or
`none` when the fuel ran out (the loop itself enforces no bound). -/
def pollLoop (poll : Nat → HttpResult String) (k : Nat) : Nat → List Event × Option (Except Unit String)
  | 0 => ([], none)
  | fuel + 1 =>
    match poll k with
    | .transportError => ([.sleepEv 5, .getPoll], some (.error ()))
    | .ok s =>
      if s = "done" ∨ s = "failed" then ([.sleepEv 5, .getPoll], some (.ok s))
      else
        let rest := pollLoop poll (k + 1) fuel
        ([.sleepEv 5, .getPoll] ++ rest.1, rest.2)

/-- The code after the polling loop: fuel exhaustion is still-running,
a hook exception propagates, `done` prints and returns, anything else
(necessarily `failed`) raises the domain exception naming the job. -/
def outcomeOfPoll (job_id : String) : Option (Except Unit String) → Option Outcome
  | none => none
  | some (.error _) => some (.raised .httpError)
  | some (.ok s) =>
    if s = "done" then some .success
    else some (.raised (.bigPandaAPIException
      ("Upload with job ID " ++ job_id ++ " failed!")))

/-- `mapping_update_table` from `mapping_enrichment.py`, as a function of
its arguments and the response oracle.  Returns the ordered side effects
and the outcome; the outcome is `none` when the polling loop was still
running after `fuel` iterations. -/
def mapping_update_table (csv_path : Option String)
    (list_of_dicts : Option (List Rec)) (enrichment_name : Option String)
    (oracle : Oracle) (fileContent : String) (fuel : Nat) :
    List Event × Option Outcome :=
  match validateArgs csv_path list_of_dicts enrichment_name with
  | some e => ([], some (.raised e))
  | none =>
    let enameE : Except PyException (Option String) :=
      if truthyStr csv_path then
        (_extract_enrichment_name_from_csv fileContent).map some
      else .ok enrichment_name
    match enameE with
    | .error e => ([], some (.raised e))
    | .ok ename =>
      let csv_string := csvStringOf csv_path list_of_dicts fileContent
      match oracle.lookup with
      | .transportError => ([.getLookup], some (.raised .httpError))
      | .ok data =>
        match resolveMappingId data ename with
        | none => ([.getLookup], some (.raised .stopIteration))
        | some _mapping_id =>
          match csv_string with
          | none => ([.getLookup], some (.raised .unboundLocalError))
          | some _ =>
            match oracle.upload with
            | .transportError => ([.getLookup, .postUpload], some (.raised .httpError))
            | .ok jobIdField =>
              match jobIdField with
              | none =>
                ([.getLookup, .postUpload],
                  some (.raised (.bigPandaAPIException "Job ID not returned by upload to BigPanda.")))
              | some job_id =>
                let p := pollLoop oracle.poll 0 fuel
                ([Event.getLookup, Event.postUpload] ++ p.1,
                  outcomeOfPoll job_id p.2)

/-- The event trace of `m` poll-loop iterations: a five-second sleep then a
status GET, repeated. -/
def pollEvents : Nat → List Event
  | 0 => []
  | m + 1 => [.sleepEv 5, .getPoll] ++ pollEvents m

theorem pollEvents_count_getPoll (m : Nat) :
    (pollEvents m).count Event.getPoll = m := by
  induction m with
  | zero => rfl
  | succ m ih => simp [pollEvents, ih, List.count_cons]

theorem pollEvents_count_sleep (m : Nat) :
    (pollEvents m).count (Event.sleepEv 5) = m := by
  induction m with
  | zero => rfl
  | succ m ih => simp [pollEvents, ih, List.count_cons]

/-- If the first `n` poll responses are non-terminal and the `(n+1)`-st is
the terminal status `t`, the loop performs exactly `n + 1` iterations and
reports `t`. -/
theorem pollLoop_terminal (poll : Nat → HttpResult String) :
    ∀ (n k fuel : Nat) (t : String),
      (∀ j, j < n → ∃ s, poll (k + j) = .ok s ∧ s ≠ "done" ∧ s ≠ "failed") →
      poll (k + n) = .ok t → (t = "done" ∨ t = "failed") →
      n + 1 ≤ fuel →
      pollLoop poll k fuel = (pollEvents (n + 1), some (.ok t)) := by
  intro n
  induction n with
  | zero =>
    intro k fuel t _ hterm ht hfuel
    cases fuel with
    | zero => omega
    | succ f =>
      simp only [Nat.add_zero] at hterm
      simp [pollLoop, hterm, ht, pollEvents]
  | succ n ih =>
    intro k fuel t hpre hterm ht hfuel
    cases fuel with
    | zero => omega
    | succ f =>
      obtain ⟨s, hs, hsd, hsf⟩ := hpre 0 (by omega)
      simp only [Nat.add_zero] at hs
      have hrest := ih (k + 1) f t
        (fun j hj => by
          have := hpre (j + 1) (by omega)
          simpa [Nat.add_assoc, Nat.add_comm 1 j] using this)
        (by simpa [Nat.add_assoc, Nat.add_comm 1 n] using hterm)
        ht (by omega)
      simp [pollLoop, hs, hsd, hsf, hrest, pollEvents]

/-- If the first `n` poll responses are non-terminal and the `(n+1)`-st
request hits a transport error, the hook's exception ends the loop after
`n + 1` iterations. -/
theorem pollLoop_transport (poll : Nat → HttpResult String) :
    ∀ (n k fuel : Nat),
      (∀ j, j < n → ∃ s, poll (k + j) = .ok s ∧ s ≠ "done" ∧ s ≠ "failed") →
      poll (k + n) = .transportError →
      n + 1 ≤ fuel →
      pollLoop poll k fuel = (pollEvents (n + 1), some (.error ())) := by
  intro n
  induction n with
  | zero =>
    intro k fuel _ hterm hfuel
    cases fuel with
    | zero => omega
    | succ f =>
      simp only [Nat.add_zero] at hterm
      simp [pollLoop, hterm, pollEvents]
  | succ n ih =>
    intro k fuel hpre hterm hfuel
    cases fuel with
    | zero => omega
    | succ f =>
      obtain ⟨s, hs, hsd, hsf⟩ := hpre 0 (by omega)
      simp only [Nat.add_zero] at hs
      have hrest := ih (k + 1) f
        (fun j hj => by
          have := hpre (j + 1) (by omega)
          simpa [Nat.add_assoc, Nat.add_comm 1 j] using this)
        (by simpa [Nat.add_assoc, Nat.add_comm 1 n] using hterm)
        (by omega)
      simp [pollLoop, hs, hsd, hsf, hrest, pollEvents]

/-- A never-terminal response stream exhausts any amount of fuel. -/
theorem pollLoop_never (poll : Nat → HttpResult String)
    (hpoll : ∀ j, ∃ s, poll j = .ok s ∧ s ≠ "done" ∧ s ≠ "failed") :
    ∀ (fuel k : Nat), (pollLoop poll k fuel).2 = none := by
  intro fuel
  induction fuel with
  | zero => intro k; rfl
  | succ f ih =>
    intro k
    obtain ⟨s, hs, hsd, hsf⟩ := hpoll k
    simp [pollLoop, hs, hsd, hsf, ih (k + 1)]

/-- Characterization of a run that reaches the upload step: a nonempty
`list_of_dicts`, a nonempty `enrichment_name`, and a lookup response
containing a matching entry. -/
theorem run_reaches_upload (lod : List Rec) (hlod : lod ≠ []) (en : String)
    (hen : en ≠ "") (data : List LookupEntry) (entry : LookupEntry)
    (hfind : data.find? (fun item => item.config_name == some en) = some entry)
    (upload : HttpResult (Option String)) (poll : Nat → HttpResult String)
    (content : String) (fuel : Nat) :
    mapping_update_table none (some lod) (some en) ⟨.ok data, upload, poll⟩
        content fuel =
      match upload with
      | .transportError => ([.getLookup, .postUpload], some (.raised .httpError))
      | .ok none =>
        ([.getLookup, .postUpload],
          some (.raised (.bigPandaAPIException "Job ID not returned by upload to BigPanda.")))
      | .ok (some job_id) =>
        ([Event.getLookup, Event.postUpload] ++ (pollLoop poll 0 fuel).1,
          outcomeOfPoll job_id (pollLoop poll 0 fuel).2) := by
  simp only [mapping_update_table, validateArgs, noneCount, truthyList, truthyStr,
    csvStringOf, resolveMappingId, hfind, hlod, hen, _list_of_dicts_to_csv_str]
  simp [hlod, hen]
  rw [hfind]
  rcases upload with _ | (_ | job_id) <;> rfl

/-- Whether an outcome is a raised `BigPandaAPIException` (the library's
single domain exception type). -/
def isDomainError : Option Outcome → Bool
  | some (.raised (.bigPandaAPIException _)) => true
  | _ => false

/-- C1 counterexample: with a matching lookup entry and a transport
failure on the submit POST, `mapping_update_table` lets the hook's
`requests.HTTPError` escape — the outcome is `httpError`, not the domain
exception `BigPandaAPIException` — so the claim as stated is false. -/
theorem claim_C1_counterexample :
    mapping_update_table none (some [[("host", "web1")]]) (some "E")
        ⟨.ok [⟨some "E", "id1"⟩], .transportError, fun _ => .ok "done"⟩ "" 5
      = ([.getLookup, .postUpload], some (.raised .httpError)) ∧
    isDomainError (mapping_update_table none (some [[("host", "web1")]]) (some "E")
        ⟨.ok [⟨some "E", "id1"⟩], .transportError, fun _ => .ok "done"⟩ "" 5).2 = false := by
  exact ⟨rfl, rfl⟩

/-- C1 (amended): any transport-level failure during the submit POST or a
poll GET propagates to the caller as the transport library's `HTTPError`
raised by the session's `raise_for_status` response hook — it is not
wrapped in `BigPandaAPIException` and carries no step-specific message;
a transport error on the submit call means no poll request is ever
attempted. -/
theorem claim_C1_amended (lod : List Rec) (hlod : lod ≠ []) (en : String)
    (hen : en ≠ "") (data : List LookupEntry) (entry : LookupEntry)
    (hfind : data.find? (fun item => item.config_name == some en) = some entry)
    (poll : Nat → HttpResult String) (content : String) (fuel : Nat) :
    (mapping_update_table none (some lod) (some en)
        ⟨.ok data, .transportError, poll⟩ content fuel
      = ([.getLookup, .postUpload], some (.raised .httpError))) ∧
    ((mapping_update_table none (some lod) (some en)
        ⟨.ok data, .transportError, poll⟩ content fuel).1.count Event.getPoll = 0) ∧
    (∀ job_id : String, ∀ n : Nat,
      (∀ j, j < n → ∃ s, poll j = .ok s ∧ s ≠ "done" ∧ s ≠ "failed") →
      poll n = .transportError → n + 1 ≤ fuel →
      (mapping_update_table none (some lod) (some en)
          ⟨.ok data, .ok (some job_id), poll⟩ content fuel).2
        = some (.raised .httpError) ∧
      (mapping_update_table none (some lod) (some en)
          ⟨.ok data, .ok (some job_id), poll⟩ content fuel).1.count Event.getPoll
        = n + 1) := by
  refine ⟨?_, ?_, ?_⟩
  · rw [run_reaches_upload lod hlod en hen data entry hfind]
  · rw [run_reaches_upload lod hlod en hen data entry hfind]
    rfl
  · intro job_id n hpre htr hfuel
    have hloop := pollLoop_transport poll n 0 fuel
      (fun j hj => by simpa using hpre j hj) (by simpa using htr) hfuel
    rw [run_reaches_upload lod hlod en hen data entry hfind]
    simp [hloop, outcomeOfPoll, List.count_append, pollEvents_count_getPoll]

/-- C1 amended, witnessed at a concrete input: transport failure on
submit, and transport failure on the second poll after one pending
response. -/
theorem claim_C1_witness :
    (mapping_update_table none (some [[("host", "web1")]]) (some "E")
        ⟨.ok [⟨some "E", "id1"⟩], .transportError, fun _ => .ok "pending"⟩ "" 5
      = ([.getLookup, .postUpload], some (.raised .httpError))) ∧
    ((mapping_update_table none (some [[("host", "web1")]]) (some "E")
        ⟨.ok [⟨some "E", "id1"⟩], .ok (some "J7"),
          fun k => if k = 0 then .ok "pending" else .transportError⟩ "" 5).2
      = some (.raised .httpError)) := by
  have h := claim_C1_amended [[("host", "web1")]] (by decide) "E" (by decide)
    [⟨some "E", "id1"⟩] ⟨some "E", "id1"⟩ (by decide)
    (fun k => if k = 0 then .ok "pending" else .transportError) "" 5
  refine ⟨?_, (h.2.2 "J7" 1 ?_ (by decide) (by decide)).1⟩
  · have h' := claim_C1_amended [[("host", "web1")]] (by decide) "E" (by decide)
      [⟨some "E", "id1"⟩] ⟨some "E", "id1"⟩ (by decide)
      (fun _ => .ok "pending") "" 5
    exact h'.1
  · intro j hj
    exact ⟨"pending", by simp [show j = 0 from by omega], by decide, by decide⟩

/-- C2: if the first terminal poll status (`done` or `failed`) appears at
position `n` (1-based), the loop performs exactly `n` status requests with
a five-second sleep before each (hence between any two successive polls);
a terminal `done` returns success and a terminal `failed` raises the
domain exception whose message contains the job identifier. -/
theorem claim_C2_poll_count (lod : List Rec) (hlod : lod ≠ []) (en : String)
    (hen : en ≠ "") (data : List LookupEntry) (entry : LookupEntry)
    (hfind : data.find? (fun item => item.config_name == some en) = some entry)
    (job_id : String) (poll : Nat → HttpResult String) (content : String)
    (n : Nat) (hn : 0 < n)
    (hpre : ∀ j, j + 1 < n → ∃ s, poll j = .ok s ∧ s ≠ "done" ∧ s ≠ "failed")
    (t : String) (hterm : poll (n - 1) = .ok t) (ht : t = "done" ∨ t = "failed")
    (fuel : Nat) (hfuel : n ≤ fuel)
    (r : List Event × Option Outcome)
    (hr : r = mapping_update_table none (some lod) (some en)
      ⟨.ok data, .ok (some job_id), poll⟩ content fuel) :
    r.1 = [Event.getLookup, Event.postUpload] ++ pollEvents n ∧
    r.1.count Event.getPoll = n ∧
    r.1.count (Event.sleepEv 5) = n ∧
    (t = "done" → r.2 = some .success) ∧
    (t = "failed" →
      r.2 = some (.raised (.bigPandaAPIException
        ("Upload with job ID " ++ job_id ++ " failed!"))) ∧
      ∃ before after : String,
        "Upload with job ID " ++ job_id ++ " failed!" = before ++ job_id ++ after) := by
  have hloop := pollLoop_terminal poll (n - 1) 0 fuel t
    (fun j hj => by simpa using hpre j (by omega))
    (by simpa using hterm) ht (by omega)
  have hsucc : n - 1 + 1 = n := by omega
  rw [hsucc] at hloop
  rw [run_reaches_upload lod hlod en hen data entry hfind] at hr
  simp only [hloop] at hr
  refine ⟨?_, ?_, ?_, ?_, ?_⟩
  · rw [hr]
  · rw [hr]
    simp [List.count_append, pollEvents_count_getPoll, List.count_cons]
  · rw [hr]
    simp [List.count_append, pollEvents_count_sleep, List.count_cons]
  · intro hdone
    rw [hr]
    simp [outcomeOfPoll, hdone]
  · intro hfailed
    constructor
    · rw [hr]
      simp [outcomeOfPoll, hfailed]
    · exact ⟨"Upload with job ID ", " failed!", rfl⟩

/-- C2 witnessed concretely: `pending, pending, done` gives exactly three
polls and success; `pending, failed` gives exactly two polls and the
domain exception naming the job. -/
theorem claim_C2_witness :
    ((mapping_update_table none (some [[("host", "web1")]]) (some "E")
        ⟨.ok [⟨some "E", "id1"⟩], .ok (some "J7"),
          fun k => if k = 0 then .ok "pending" else if k = 1 then .ok "pending"
            else .ok "done"⟩ "" 9).1.count Event.getPoll = 3 ∧
      (mapping_update_table none (some [[("host", "web1")]]) (some "E")
        ⟨.ok [⟨some "E", "id1"⟩], .ok (some "J7"),
          fun k => if k = 0 then .ok "pending" else if k = 1 then .ok "pending"
            else .ok "done"⟩ "" 9).2 = some .success) ∧
    ((mapping_update_table none (some [[("host", "web1")]]) (some "E")
        ⟨.ok [⟨some "E", "id1"⟩], .ok (some "J7"),
          fun k => if k = 0 then .ok "pending" else .ok "failed"⟩ "" 9).1.count
        Event.getPoll = 2 ∧
      (mapping_update_table none (some [[("host", "web1")]]) (some "E")
        ⟨.ok [⟨some "E", "id1"⟩], .ok (some "J7"),
          fun k => if k = 0 then .ok "pending" else .ok "failed"⟩ "" 9).2
        = some (.raised (.bigPandaAPIException "Upload with job ID J7 failed!"))) := by
  constructor
  · have h := claim_C2_poll_count [[("host", "web1")]] (by decide) "E" (by decide)
      [⟨some "E", "id1"⟩] ⟨some "E", "id1"⟩ (by decide) "J7"
      (fun k => if k = 0 then .ok "pending" else if k = 1 then .ok "pending"
        else .ok "done") "" 3 (by decide)
      (fun j hj => ⟨"pending", by
        have hj2 : j = 0 ∨ j = 1 := by omega
        rcases hj2 with h0 | h1
        · simp [h0]
        · simp [h1], by decide, by decide⟩)
      "done" (by decide) (Or.inl rfl) 9 (by decide) _ rfl
    exact ⟨h.2.1, h.2.2.2.1 rfl⟩
  · have h := claim_C2_poll_count [[("host", "web1")]] (by decide) "E" (by decide)
      [⟨some "E", "id1"⟩] ⟨some "E", "id1"⟩ (by decide) "J7"
      (fun k => if k = 0 then .ok "pending" else .ok "failed") "" 2 (by decide)
      (fun j hj => ⟨"pending", by simp [show j = 0 from by omega], by decide,
        by decide⟩)
      "failed" (by decide) (Or.inr rfl) 9 (by decide) _ rfl
    exact ⟨h.2.1, (h.2.2.2.2 rfl).1⟩

/-- C3: when the submit response's JSON has no `job_id` field, the
`KeyError` is caught and re-raised as `BigPandaAPIException` before any
poll request is issued. -/
theorem claim_C3_missing_job_id (lod : List Rec) (hlod : lod ≠ []) (en : String)
    (hen : en ≠ "") (data : List LookupEntry) (entry : LookupEntry)
    (hfind : data.find? (fun item => item.config_name == some en) = some entry)
    (poll : Nat → HttpResult String) (content : String) (fuel : Nat) :
    mapping_update_table none (some lod) (some en) ⟨.ok data, .ok none, poll⟩
        content fuel
      = ([.getLookup, .postUpload],
          some (.raised (.bigPandaAPIException "Job ID not returned by upload to BigPanda."))) ∧
    (mapping_update_table none (some lod) (some en) ⟨.ok data, .ok none, poll⟩
        content fuel).1.count Event.getPoll = 0 := by
  constructor
  · rw [run_reaches_upload lod hlod en hen data entry hfind]
  · rw [run_reaches_upload lod hlod en hen data entry hfind]
    rfl

/-- C3 witnessed at a concrete input. -/
theorem claim_C3_witness :
    mapping_update_table none (some [[("host", "web1")]]) (some "E")
        ⟨.ok [⟨some "E", "id1"⟩], .ok none, fun _ => .ok "done"⟩ "" 5
      = ([.getLookup, .postUpload],
          some (.raised (.bigPandaAPIException "Job ID not returned by upload to BigPanda."))) :=
  (claim_C3_missing_job_id [[("host", "web1")]] (by decide) "E" (by decide)
    [⟨some "E", "id1"⟩] ⟨some "E", "id1"⟩ (by decide)
    (fun _ => .ok "done") "" 5).1

/-- C4: the polling loop enforces no iteration bound or timeout — if no
poll response ever has status `done` or `failed`, then for every fuel
bound the run is still polling (no outcome is ever produced). -/
theorem claim_C4_no_timeout (lod : List Rec) (hlod : lod ≠ []) (en : String)
    (hen : en ≠ "") (data : List LookupEntry) (entry : LookupEntry)
    (hfind : data.find? (fun item => item.config_name == some en) = some entry)
    (job_id : String) (poll : Nat → HttpResult String) (content : String)
    (hpoll : ∀ j, ∃ s, poll j = .ok s ∧ s ≠ "done" ∧ s ≠ "failed") :
    ∀ fuel : Nat,
      (mapping_update_table none (some lod) (some en)
        ⟨.ok data, .ok (some job_id), poll⟩ content fuel).2 = none := by
  intro fuel
  rw [run_reaches_upload lod hlod en hen data entry hfind]
  simp [pollLoop_never poll hpoll fuel 0, outcomeOfPoll]

/-- C4 witnessed: a permanently-`pending` stream exhausts a fuel bound of
one hundred iterations without an outcome. -/
theorem claim_C4_witness :
    (mapping_update_table none (some [[("host", "web1")]]) (some "E")
        ⟨.ok [⟨some "E", "id1"⟩], .ok (some "J7"), fun _ => .ok "pending"⟩
        "" 100).2 = none :=
  claim_C4_no_timeout [[("host", "web1")]] (by decide) "E" (by decide)
    [⟨some "E", "id1"⟩] ⟨some "E", "id1"⟩ (by decide) "J7"
    (fun _ => .ok "pending") ""
    (fun _ => ⟨"pending", rfl, by decide, by decide⟩) 100

/-- C7: when the lookup response's `data` array holds two or more entries
whose `config.name` equals the requested name, the generator expression in
`mapping_update_table` yields the first matching entry in array order, so
its `id` is the one used. -/
theorem claim_C7_first_match (pre : List LookupEntry) (e : LookupEntry)
    (rest : List LookupEntry) (en : String)
    (hpre : ∀ x ∈ pre, (x.config_name == some en) = false)
    (he : e.config_name = some en)
    (hdup : ∃ x ∈ rest, x.config_name = some en) :
    resolveMappingId (pre ++ e :: rest) (some en) = some e.id := by
  unfold resolveMappingId
  rw [List.find?_append]
  have h1 : pre.find? (fun item => item.config_name == some en) = none :=
    List.find?_eq_none.mpr (fun x hx => by simp [hpre x hx])
  rw [h1, List.find?_cons_of_pos _ (by simp [he])]
  rfl

/-- C7 witnessed: two entries named `E`; the first one's id is returned. -/
theorem claim_C7_witness :
    resolveMappingId [⟨some "X", "id0"⟩, ⟨some "E", "id1"⟩, ⟨some "E", "id2"⟩]
        (some "E") = some "id1" :=
  claim_C7_first_match [⟨some "X", "id0"⟩] ⟨some "E", "id1"⟩ [⟨some "E", "id2"⟩]
    "E" (by decide) rfl ⟨⟨some "E", "id2"⟩, by decide, rfl⟩

/-- C8 counterexample: the arguments `csv_path=None, list_of_dicts=[],
enrichment_name=None` are "`list_of_dicts` without `enrichment_name`", yet
validation passes (the empty list is not `None` but is falsy), a network
call is issued, and the eventual failure is an `UnboundLocalError` after
the lookup GET — not a synchronous exception before any network call —
so the claim as stated is false. -/
theorem claim_C8_counterexample :
    validateArgs none (some []) none = none ∧
    mapping_update_table none (some []) none
        ⟨.ok [⟨none, "id0"⟩], .ok (some "J"), fun _ => .ok "done"⟩ "" 5
      = ([.getLookup], some (.raised .unboundLocalError)) := by
  exact ⟨rfl, rfl⟩

/-- C8 (amended): contradictory or missing arguments — both `csv_path`
and `list_of_dicts` supplied, neither supplied, or a *truthy* (nonempty)
`list_of_dicts` without a truthy `enrichment_name` — raise `TypeError`
synchronously, with no events and in particular before any network call;
an empty `list_of_dicts` with `enrichment_name` omitted escapes this
validation. -/
theorem claim_C8_amended (csv_path : Option String) (lod : Option (List Rec))
    (ename : Option String) (oracle : Oracle) (content : String) (fuel : Nat)
    (h : (csv_path ≠ none ∧ lod ≠ none) ∨ (csv_path = none ∧ lod = none) ∨
      (csv_path = none ∧ truthyList lod = true ∧ truthyStr ename = false)) :
    ∃ m, mapping_update_table csv_path lod ename oracle content fuel
      = ([], some (.raised (.typeError m))) := by
  rcases h with ⟨h1, h2⟩ | ⟨h1, h2⟩ | ⟨h1, h2, h3⟩
  · refine ⟨"The arguments 'csv_path' and 'list_of_dicts' are mutually exclusive.", ?_⟩
    obtain ⟨c, rfl⟩ := Option.ne_none_iff_exists'.mp h1
    obtain ⟨l, rfl⟩ := Option.ne_none_iff_exists'.mp h2
    simp [mapping_update_table, validateArgs, noneCount]
  · subst h1; subst h2
    exact ⟨"Either argument 'csv_path' or 'list_of_dicts' must be set.", rfl⟩
  · refine ⟨"Argument 'list_of_dicts' requires that argument 'enrichment_name' also be set.", ?_⟩
    subst h1
    have hl : lod ≠ none := by
      intro hn; rw [hn] at h2; simp [truthyList] at h2
    obtain ⟨l, rfl⟩ := Option.ne_none_iff_exists'.mp hl
    simp only [truthyList, decide_eq_true_eq] at h2
    simp [mapping_update_table, validateArgs, noneCount, truthyList, h2, h3]

/-- C8 amended, witnessed on the three detected cases. -/
theorem claim_C8_witness :
    (∃ m, mapping_update_table (some "p.csv") (some [])
        none ⟨.ok [], .ok none, fun _ => .ok "done"⟩ "" 3
      = ([], some (.raised (.typeError m)))) ∧
    (∃ m, mapping_update_table none none
        none ⟨.ok [], .ok none, fun _ => .ok "done"⟩ "" 3
      = ([], some (.raised (.typeError m)))) ∧
    (∃ m, mapping_update_table none (some [[("a", "1")]])
        none ⟨.ok [], .ok none, fun _ => .ok "done"⟩ "" 3
      = ([], some (.raised (.typeError m)))) :=
  ⟨claim_C8_amended (some "p.csv") (some []) none _ "" 3 (Or.inl ⟨by decide, by decide⟩),
   claim_C8_amended none none none _ "" 3 (Or.inr (Or.inl ⟨rfl, rfl⟩)),
   claim_C8_amended none (some [[("a", "1")]]) none _ "" 3
     (Or.inr (Or.inr ⟨rfl, by decide, by decide⟩))⟩

/-- C9: `list_of_dicts=[]` with `csv_path` and `enrichment_name` omitted
passes every validation check, leaves `csv_string` unassigned, and — once
the lookup succeeds — fails with `UnboundLocalError` at the upload call,
not with a `TypeError` or the domain exception. -/
theorem claim_C9_unbound_local (oracle : Oracle) (content : String) (fuel : Nat)
    (data : List LookupEntry) (entry : LookupEntry)
    (hlookup : oracle.lookup = .ok data)
    (hfind : data.find? (fun item => item.config_name == (none : Option String))
      = some entry) :
    validateArgs none (some []) none = none ∧
    csvStringOf none (some []) content = none ∧
    mapping_update_table none (some []) none oracle content fuel
      = ([.getLookup], some (.raised .unboundLocalError)) := by
  obtain ⟨lk, up, pl⟩ := oracle
  simp only at hlookup
  subst hlookup
  refine ⟨rfl, rfl, ?_⟩
  simp [mapping_update_table, validateArgs, noneCount, truthyList, truthyStr,
    csvStringOf, resolveMappingId, hfind]

/-- C9 witnessed with a lookup response whose sole entry has a `null`
name (matching the `None` enrichment name). -/
theorem claim_C9_witness :
    validateArgs none (some []) none = none ∧
    csvStringOf none (some []) "" = none ∧
    mapping_update_table none (some []) none
        ⟨.ok [⟨none, "id0"⟩], .ok (some "J"), fun _ => .ok "done"⟩ "" 5
      = ([.getLookup], some (.raised .unboundLocalError)) :=
  claim_C9_unbound_local ⟨.ok [⟨none, "id0"⟩], .ok (some "J"), fun _ => .ok "done"⟩
    "" 5 [⟨none, "id0"⟩] ⟨none, "id0"⟩ rfl (by decide)

/-- C10: when no lookup entry's `config.name` equals the requested name,
the exhausted generator makes `next` raise `StopIteration` — not
`BigPandaAPIException` — and no submit POST is ever issued. -/
theorem claim_C10_stop_iteration (lod : List Rec) (hlod : lod ≠ []) (en : String)
    (hen : en ≠ "") (data : List LookupEntry)
    (hnone : ∀ item ∈ data, (item.config_name == some en) = false)
    (upload : HttpResult (Option String)) (poll : Nat → HttpResult String)
    (content : String) (fuel : Nat) :
    mapping_update_table none (some lod) (some en) ⟨.ok data, upload, poll⟩
        content fuel
      = ([.getLookup], some (.raised .stopIteration)) ∧
    (mapping_update_table none (some lod) (some en) ⟨.ok data, upload, poll⟩
        content fuel).1.count Event.postUpload = 0 := by
  have hfind : data.find? (fun item => item.config_name == some en) = none :=
    List.find?_eq_none.mpr (fun x hx => by simp [hnone x hx])
  have hrun : mapping_update_table none (some lod) (some en)
      ⟨.ok data, upload, poll⟩ content fuel
      = ([.getLookup], some (.raised .stopIteration)) := by
    simp [mapping_update_table, validateArgs, noneCount, truthyList, truthyStr,
      csvStringOf, resolveMappingId, hfind, hlod, hen]
  exact ⟨hrun, by rw [hrun]; rfl⟩

/-- C10 witnessed: one lookup entry named `X`, request for `E`. -/
theorem claim_C10_witness :
    mapping_update_table none (some [[("host", "web1")]]) (some "E")
        ⟨.ok [⟨some "X", "id0"⟩], .ok (some "J"), fun _ => .ok "done"⟩ "" 5
      = ([.getLookup], some (.raised .stopIteration)) :=
  (claim_C10_stop_iteration [[("host", "web1")]] (by decide) "E" (by decide)
    [⟨some "X", "id0"⟩] (by decide) (.ok (some "J")) (fun _ => .ok "done") "" 5).1

/-- Per-record key permutations leave the union of keys unchanged. -/
theorem forall₂_mem_keys {lod lod' : List Rec}
    (hperm : List.Forall₂ (fun r r' => (recKeys r).Perm (recKeys r')) lod lod')
    (f : String) :
    (∃ r ∈ lod, f ∈ recKeys r) ↔ (∃ r' ∈ lod', f ∈ recKeys r') := by
  induction hperm with
  | nil => simp
  | cons h _ ih =>
    simp only [List.mem_cons]
    constructor
    · rintro ⟨r, (rfl | hr), hfr⟩
      · exact ⟨_, Or.inl rfl, h.mem_iff.mp hfr⟩
      · obtain ⟨r', hr', hfr'⟩ := ih.mp ⟨r, hr, hfr⟩
        exact ⟨r', Or.inr hr', hfr'⟩
    · rintro ⟨r', (rfl | hr'), hfr'⟩
      · exact ⟨_, Or.inl rfl, h.mem_iff.mpr hfr'⟩
      · obtain ⟨r, hr, hfr⟩ := ih.mpr ⟨r', hr', hfr'⟩
        exact ⟨r, Or.inr hr, hfr⟩

/-- C5: the header row of the produced CSV is the sorted, de-duplicated
union of the field names across all records, it leads the output string,
and it is unchanged when the key insertion order inside each record is
permuted. -/
theorem claim_C5_header (lod lod' : List Rec)
    (hperm : List.Forall₂ (fun r r' => (recKeys r).Perm (recKeys r')) lod lod') :
    List.Sorted strLe (fieldnames lod) ∧
    (fieldnames lod).Nodup ∧
    (∀ f, f ∈ fieldnames lod ↔ ∃ r ∈ lod, f ∈ recKeys r) ∧
    _list_of_dicts_to_csv_str lod
      = String.mk (writeRow (fieldnames lod) ++
          lod.flatMap (fun r => writeRow (rowOf (fieldnames lod) r))) ∧
    fieldnames lod = fieldnames lod' := by
  refine ⟨fieldnames_sorted lod, fieldnames_nodup lod,
    fun f => mem_fieldnames, rfl, ?_⟩
  exact fieldnames_ext (fun f => forall₂_mem_keys hperm f)

/-- C5 witnessed: reversing the key order inside a record leaves the
computed header unchanged. -/
theorem claim_C5_witness :
    List.Forall₂ (fun r r' => (recKeys r).Perm (recKeys r'))
      [[("b", "2"), ("a", "1")]] [[("a", "1"), ("b", "2")]] ∧
    fieldnames [[("b", "2"), ("a", "1")]] = fieldnames [[("a", "1"), ("b", "2")]] :=
  ⟨by decide,
    (claim_C5_header [[("b", "2"), ("a", "1")]] [[("a", "1"), ("b", "2")]]
      (by decide)).2.2.2.2⟩

theorem lookup_eq_none_iff (r : Rec) (f : String) :
    r.lookup f = none ↔ f ∉ recKeys r := by
  induction r with
  | nil => simp [List.lookup, recKeys]
  | cons kv r ih =>
    obtain ⟨k, v⟩ := kv
    by_cases hk : f = k
    · subst hk
      simp [List.lookup, recKeys]
    · have hk' : (f == k) = false := by simp [hk]
      have h1 : List.lookup f ((k, v) :: r) = List.lookup f r := by
        simp [List.lookup, hk']
      have h2 : recKeys ((k, v) :: r) = k :: recKeys r := rfl
      rw [h1, h2, ih]
      simp [List.mem_cons, hk]

theorem zip_map_self {α β : Type} (g : α → β) (l : List α) :
    l.zip (l.map g) = l.map (fun a => (a, g a)) := by
  have h := List.zip_map' id g l
  simpa using h

/-- C6: parsing the serialized output recovers the header and exactly one
row per record; pairing the header with a record's row reconstructs the
record under the missing/extra-fields policy — absent fields read back as
empty cells, every reconstructed field is a header field (extras are
dropped), and fields present in the record keep their values. -/
theorem claim_C6_roundtrip (lod : List Rec) (h : fieldnames lod ≠ []) :
    parseCSV (csvChars lod)
      = some (fieldnames lod :: lod.map (rowOf (fieldnames lod))) ∧
    (∀ r ∈ lod, (fieldnames lod).zip (rowOf (fieldnames lod) r)
        = (fieldnames lod).map (fun f => (f, (r.lookup f).getD ""))) ∧
    (∀ r ∈ lod, ∀ f ∈ fieldnames lod, f ∉ recKeys r →
        (f, "") ∈ (fieldnames lod).zip (rowOf (fieldnames lod) r)) ∧
    (∀ r ∈ lod, ∀ fv ∈ (fieldnames lod).zip (rowOf (fieldnames lod) r),
        fv.1 ∈ fieldnames lod) ∧
    (∀ r ∈ lod, ∀ f v, f ∈ fieldnames lod → r.lookup f = some v →
        (f, v) ∈ (fieldnames lod).zip (rowOf (fieldnames lod) r)) := by
  have hzip : ∀ r : Rec, (fieldnames lod).zip (rowOf (fieldnames lod) r)
      = (fieldnames lod).map (fun f => (f, (r.lookup f).getD "")) := by
    intro r
    exact zip_map_self _ _
  refine ⟨?_, fun r _ => hzip r, ?_, ?_, ?_⟩
  · have hrows : ∀ row ∈ fieldnames lod :: lod.map (rowOf (fieldnames lod)),
        row ≠ [] := by
      intro row hrow
      rcases List.mem_cons.mp hrow with rfl | hmem
      · exact h
      · obtain ⟨r, _, rfl⟩ := List.mem_map.mp hmem
        simp only [rowOf, ne_eq, List.map_eq_nil_iff]
        exact h
    have hflat : csvChars lod
        = (fieldnames lod :: lod.map (rowOf (fieldnames lod))).flatMap writeRow := by
      simp [csvChars, List.flatMap_cons, List.flatMap_map]
    rw [hflat]
    exact parseCSV_writeRows _ hrows
  · intro r _ f hf hnotin
    rw [hzip r]
    have hnone : r.lookup f = none := (lookup_eq_none_iff r f).mpr hnotin
    exact List.mem_map.mpr ⟨f, hf, by simp [hnone]⟩
  · intro r _ fv hfv
    rw [hzip r] at hfv
    obtain ⟨f, hf, rfl⟩ := List.mem_map.mp hfv
    exact hf
  · intro r _ f v hf hsome
    rw [hzip r]
    exact List.mem_map.mpr ⟨f, hf, by simp [hsome]⟩

/-- C6 witnessed: a record with an extra view of the policy — the second
record misses field `b` and the parse recovers header and rows exactly. -/
theorem claim_C6_witness :
    fieldnames [[("a", "1"), ("b", "2")], [("a", "x")]] ≠ [] ∧
    parseCSV (csvChars [[("a", "1"), ("b", "2")], [("a", "x")]])
      = some (fieldnames [[("a", "1"), ("b", "2")], [("a", "x")]] ::
          [[("a", "1"), ("b", "2")], [("a", "x")]].map
            (rowOf (fieldnames [[("a", "1"), ("b", "2")], [("a", "x")]]))) :=
  ⟨by decide,
    (claim_C6_roundtrip [[("a", "1"), ("b", "2")], [("a", "x")]] (by decide)).1⟩
